import Mathlib

/-!
Verification of the iptw (IP Travel Wallpaper) core against its specification.

The Go sources are embedded shallowly:
* machine integers become `Int` (no overflow is relevant at the sizes involved),
* `float64` arithmetic on geographic coordinates becomes exact `ℚ` arithmetic,
  with the Go `int(...)` conversion modelled as truncation toward zero,
* Go maps become association lists processed in iteration order,
* `time.Time` becomes an integer timestamp (`0` is the zero time), and the
  current time is passed explicitly to each operation that reads the clock,
* mutex acquisition/release is dropped: each locked region is a pure function
  from the pre-state to the post-state.
-/

namespace Iptw

/-! ## Game-state engine (gui package, `CountryGameState` / `GameState`) -/

/-- Per-country visit state, from `CountryGameState` in the gui package:
`HitCount int`, `Boring bool`, `LastHit time.Time`. -/
structure CountryGameState where
  HitCount : Int
  Boring : Bool
  LastHit : Int
deriving Repr, DecidableEq

/-- The Go zero value `CountryGameState{}` created on first access of a country. -/
def zeroCountryState : CountryGameState :=
  { HitCount := 0, Boring := false, LastHit := 0 }

/-- Overall game state, from `GameState` in the gui package: the
`map[string]*CountryGameState` becomes an association list, and the two target
fields are kept as written (`targetCountry string`, `targetSetAt time.Time`). -/
structure GameState where
  countries : List (String × CountryGameState)
  targetCountry : String
  targetSetAt : Int
deriving Repr, DecidableEq

/-- Go map read `gs.countries[country]`. -/
def lookupCountry : List (String × CountryGameState) → String → Option CountryGameState
  | [], _ => none
  | (k, v) :: rest, c => if k = c then some v else lookupCountry rest c

/-- Go map write `gs.countries[country] = v` for a key already present
(insertion at the end when absent). -/
def setCountry : List (String × CountryGameState) → String → CountryGameState →
    List (String × CountryGameState)
  | [], c, v => [(c, v)]
  | (k, w) :: rest, c, v =>
      if k = c then (k, v) :: rest else (k, w) :: setCountry rest c v

/-- The prologue shared by the three mutating operations:
`if gs.countries[country] == nil { gs.countries[country] = &CountryGameState{} }`
followed by `countryState := gs.countries[country]`. Returns the (possibly
extended) map together with the entry the Go code then mutates in place. -/
def getOrInit (m : List (String × CountryGameState)) (c : String) :
    List (String × CountryGameState) × CountryGameState :=
  match lookupCountry m c with
  | some st => (m, st)
  | none => (m ++ [(c, zeroCountryState)], zeroCountryState)

/-- `GameState.AddCountryHit` from the gui package: increments the hit count
and stamps `LastHit` unless the country is already boring; marks the country
boring when the count reaches 10. -/
def GameState.AddCountryHit (gs : GameState) (country : String) (now : Int) : GameState :=
  let gi := getOrInit gs.countries country
  let gs1 : GameState := { gs with countries := gi.1 }
  let countryState := gi.2
  if !countryState.Boring then
    let st1 := { countryState with HitCount := countryState.HitCount + 1, LastHit := now }
    let st2 := if st1.HitCount ≥ 10 then { st1 with Boring := true } else st1
    { gs1 with countries := setCountry gs1.countries country st2 }
  else
    gs1

/-- `GameState.AddCountryHitWithTargetCheck` from the gui package: like
`AddCountryHit`, but reports whether the country just became boring and whether
it was the current target, clearing the target in that case. -/
def GameState.AddCountryHitWithTargetCheck (gs : GameState) (country : String) (now : Int) :
    GameState × Bool × Bool :=
  let gi := getOrInit gs.countries country
  let gs1 : GameState := { gs with countries := gi.1 }
  let countryState := gi.2
  if !countryState.Boring then
    let st1 := { countryState with HitCount := countryState.HitCount + 1, LastHit := now }
    if st1.HitCount ≥ 10 then
      let st2 := { st1 with Boring := true }
      let becameBoring := true
      let wasTarget := gs1.targetCountry = country
      let gs2 : GameState := { gs1 with countries := setCountry gs1.countries country st2 }
      if wasTarget then
        ({ gs2 with targetCountry := "", targetSetAt := 0 }, becameBoring, true)
      else
        (gs2, becameBoring, false)
    else
      ({ gs1 with countries := setCountry gs1.countries country st1 }, false, false)
  else
    (gs1, false, false)

/-- `GameState.MarkCountryAsBoring` from the gui package: unconditionally marks
the country boring (at whatever hit count it has) unless it already is, stamps
`LastHit`, reports whether it was the target and the previous target, and clears
the target when it was this country. When the country is already boring the
function returns the Go zero values `(false, "")`. -/
def GameState.MarkCountryAsBoring (gs : GameState) (country : String) (now : Int) :
    GameState × Bool × String :=
  let gi := getOrInit gs.countries country
  let gs1 : GameState := { gs with countries := gi.1 }
  let countryState := gi.2
  if !countryState.Boring then
    let st1 := { countryState with Boring := true, LastHit := now }
    let wasTarget := gs1.targetCountry = country
    let prevTarget := gs1.targetCountry
    let gs2 : GameState := { gs1 with countries := setCountry gs1.countries country st1 }
    if wasTarget then
      ({ gs2 with targetCountry := "", targetSetAt := 0 }, true, prevTarget)
    else
      (gs2, false, prevTarget)
  else
    (gs1, false, "")

/-- The entry the mutating operations observe for `c`: the stored entry, or the
zero value that `getOrInit` would create. -/
def countryStateD (gs : GameState) (c : String) : CountryGameState :=
  (lookupCountry gs.countries c).getD zeroCountryState

/-- The spec invariant on `CountryVisitState`: a boring entry has at least 10
hits. Stated over the stored entries of the map. -/
def BoringHitInvariant (gs : GameState) : Prop :=
  ∀ p ∈ gs.countries, p.2.Boring = true → 10 ≤ p.2.HitCount

instance (gs : GameState) : Decidable (BoringHitInvariant gs) := by
  unfold BoringHitInvariant; infer_instance

/-- `c` is the active target of `gs` (the target field is set and names `c`). -/
def ActiveTarget (gs : GameState) (c : String) : Prop :=
  gs.targetCountry = c ∧ c ≠ ""

/-! ## Achievements (internal/achievements) -/

/-- `Achievement` from internal/achievements/achievements.go. -/
structure Achievement where
  ID : String
  Name : String
  Description : String
  Unlocked : Bool
  Progress : Int
  Target : Int
  Countries : Option (List String)
deriving Repr, DecidableEq

/-- `containsCountry` from achievements.go: case-insensitive membership. -/
def containsCountry (countries : List String) (country : String) : Bool :=
  countries.any (fun c => c.toLower == country.toLower)

/-- One iteration of the loop body of `AchievementManager.UpdateProgress`
for a single achievement: returns the updated achievement and whether its ID
was appended to `newUnlocks` in this call. -/
def updateAchievement (a : Achievement) (countryName : String)
    (totalCountriesVisited : Int) : Achievement × Bool :=
  if a.Unlocked then
    (a, false)
  else
    let a1 :=
      if a.ID = "world_traveler" ∨ a.ID = "global_nomad" then
        { a with Progress := totalCountriesVisited }
      else
        match a.Countries with
        | some cs =>
            if containsCountry cs countryName then { a with Progress := a.Progress + 1 } else a
        | none => a
    if a1.Progress ≥ a1.Target ∧ !a1.Unlocked then
      ({ a1 with Unlocked := true }, true)
    else
      (a1, false)

/-- `AchievementManager.UpdateProgress` from achievements.go, over the
manager's achievements in iteration order: updates every achievement and
collects the IDs of the achievements newly unlocked by this call. -/
def UpdateProgress : List Achievement → String → Int → List Achievement × List String
  | [], _, _ => ([], [])
  | a :: rest, countryName, total =>
      let ae := updateAchievement a countryName total
      let rr := UpdateProgress rest countryName total
      (ae.1 :: rr.1, (if ae.2 then [ae.1.ID] else []) ++ rr.2)

/-! ## Coordinate projection (internal/resources `geoToPixel`, gui `latLngToMapCoords`) -/

/-- The Go conversion `int(x)` applied to a `float64`: truncation toward zero,
here on the exact rational value. -/
def goInt (q : ℚ) : Int := if 0 ≤ q then ⌊q⌋ else -⌊-q⌋

/-- `geoToPixel` from internal/resources/resources.go: the equirectangular
projection `x = (lng + 180) * width / 360`, `y = (90 - lat) * height / 180`. -/
def geoToPixel (lat lng : ℚ) (width height : Int) : ℚ × ℚ :=
  ((lng + 180) * (width : ℚ) / 360, (90 - lat) * (height : ℚ) / 180)

/-- `App.latLngToMapCoords` from the gui package: the same projection as
`geoToPixel`, duplicated at the call site that places connection markers. -/
def latLngToMapCoords (lat lng : ℚ) (mapWidth mapHeight : Int) : ℚ × ℚ :=
  ((lng + 180) * (mapWidth : ℚ) / 360, (90 - lat) * (mapHeight : ℚ) / 180)

/-! ## Country fill selection (internal/resources `RenderNaturalEarthMap`) -/

/-- `color.RGBA` with components kept as integers (all values in 0..255). -/
structure RGBA where
  R : Int
  G : Int
  B : Int
  A : Int
deriving Repr, DecidableEq

/-- `getCountryHitColor` from internal/resources: bright red for 10+ hits,
otherwise the warm yellow-to-orange ramp over hits 1..9. The `uint8(...)`
conversions of the `float64` channel values are `goInt` truncations. -/
def getCountryHitColor (hitCount : Int) : RGBA :=
  if hitCount ≥ 10 then
    { R := 255, G := 50, B := 50, A := 200 }
  else
    let intensity : ℚ := (hitCount : ℚ) / 9
    { R := 255
      G := goInt (255 - intensity * 150)
      B := goInt (50 * (1 - intensity))
      A := goInt (80 + intensity * 100) }

/-- How a single country is painted by `RenderNaturalEarthMap`
(current revision, the 9-argument version taking `recentHitCountries`). -/
inductive CountryFill where
  | flagFill (gammaCorrected : Bool)
  | solidFill (c : RGBA)
  | sandRocksFill
deriving Repr, DecidableEq

/-- The per-country branch of `RenderNaturalEarthMap` (current revision):
flag texture for 1..9 hits when a flag manager is present, the alpha-2 code is
known and a flag bitmap exists; sand/rocks gradient for boring countries with
10+ hits; otherwise a solid fill (hit ramp, or the theme default gray). -/
def selectCountryFill (hitCount : Int) (isBoring : Bool) (hasFlagManager : Bool)
    (alpha2 : String) (flagAvailable : Bool) (recentlyHit : Bool) (black : Bool) :
    CountryFill :=
  if hitCount ≥ 1 ∧ hitCount < 10 ∧ hasFlagManager = true ∧ alpha2 ≠ "" then
    if flagAvailable then
      CountryFill.flagFill recentlyHit
    else
      CountryFill.solidFill (getCountryHitColor hitCount)
  else if isBoring = true ∧ hitCount ≥ 10 then
    CountryFill.sandRocksFill
  else if hitCount > 0 then
    CountryFill.solidFill (getCountryHitColor hitCount)
  else
    CountryFill.solidFill
      (if black then { R := 60, G := 60, B := 60, A := 255 }
       else { R := 200, G := 200, B := 200, A := 255 })

/-- A fill is the "boring" representation when it is the sand/rocks gradient or
the bright-red 10+ color of `getCountryHitColor` (the conquered/boring color). -/
def boringRepresentation : CountryFill → Bool
  | CountryFill.sandRocksFill => true
  | CountryFill.solidFill c => if c = { R := 255, G := 50, B := 50, A := 200 } then true else false
  | CountryFill.flagFill _ => false

/-! ## Text overlay renderer (internal/resources `DrawGameInfoRectangle`) -/

/-- `FontManager` from internal/resources: the loaded fonts as an association
list from file name to (opaque) font data, in map iteration order. -/
structure FontManager where
  fonts : List (String × String)
deriving Repr, DecidableEq

/-- Go map read `fm.fonts[name]`. -/
def lookupFont : List (String × String) → String → Option String
  | [], _ => none
  | (k, v) :: rest, c => if k = c then some v else lookupFont rest c

/-- `FontManager.GetFont`: the named font when present, else the first font of
the map iteration, else nothing. -/
def GetFont (fm : FontManager) (name : String) : Option String :=
  match (if name ≠ "" then lookupFont fm.fonts name else none) with
  | some font => some font
  | none => fm.fonts.head?.map (fun p => p.2)

/-- `GameInfoConfig` from internal/resources. -/
structure GameInfoConfig where
  BackgroundColor : RGBA
  TextColor : RGBA
  BorderColor : RGBA
  FontSize : ℚ
  Padding : Int
  BorderWidth : Int
deriving Repr, DecidableEq

/-- The three-step font fallback at the top of `DrawGameInfoRectangle`:
`Caveat-Regular.ttf`, then the variable-weight font, then any available font. -/
def pickPanelFont (fmv : FontManager) : Option String :=
  match GetFont fmv "Caveat-Regular.ttf" with
  | some f => some f
  | none =>
      match GetFont fmv "Caveat-VariableFont_wght.ttf" with
      | some f => some f
      | none => GetFont fmv ""

/-- `DrawGameInfoRectangle` from internal/resources/resources.go. The raster
is an abstract state threaded through; the text rendering performed on success
(`drawTextWithFreetype`, which draws through the external freetype engine) is a
parameter. The result is the returned error (if any) together with the raster:
every validation failure returns before anything touches the raster. -/
def DrawGameInfoRectangle {Raster : Type} (img : Raster) (fm : Option FontManager)
    (x y width height : Int) (lines : List String) (config : GameInfoConfig)
    (drawTextWithFreetype : Raster → Raster) : Except String Unit × Raster :=
  match fm with
  | none => (Except.error "font manager is nil", img)
  | some fmv =>
      match pickPanelFont fmv with
      | none => (Except.error "no fonts available", img)
      | some _ =>
          if width ≤ 0 ∨ height ≤ 0 then
            (Except.error "invalid rectangle dimensions", img)
          else if config.TextColor.A = 0 then
            (Except.error "text color has zero alpha - text would be invisible", img)
          else
            (Except.ok (), drawTextWithFreetype img)

/-! ## Geometry data model and point-in-polygon locator (internal/resources) -/

/-- A ring of (longitude, latitude) vertices, as in orb geometry. -/
abbrev Ring2D := List (ℚ × ℚ)

/-- A polygon: exterior ring first, then hole rings. -/
abbrev Polygon2D := List Ring2D

/-- A multipolygon: a list of polygons. -/
abbrev MultiPolygon2D := List Polygon2D

/-- `CountryData` from internal/resources. -/
structure CountryData where
  Name : String
  Geometry : MultiPolygon2D
deriving Repr, DecidableEq

/-- `NaturalEarthData` from internal/resources. -/
structure NaturalEarthData where
  Countries : List CountryData
deriving Repr, DecidableEq

/-- Modelled from the spec: one edge test of the ray-casting point-in-ring
algorithm used by `planar.MultiPolygonContains` of the external orb library
(the library is not part of this repository). A horizontal ray from `q` crosses
the edge `p1`-`p2` when the edge spans `q`'s latitude and the crossing point
lies to the right of `q`. -/
def rayCrossesEdge (q p1 p2 : ℚ × ℚ) : Bool :=
  decide ((p1.2 > q.2) ≠ (p2.2 > q.2)) &&
    decide (q.1 < p1.1 + (q.2 - p1.2) * (p2.1 - p1.1) / (p2.2 - p1.2))

/-- Modelled from the spec: `q` is inside the ring when the horizontal ray
crosses the ring's edges an odd number of times (standard ray casting). -/
def ringContains (ring : Ring2D) (q : ℚ × ℚ) : Bool :=
  (List.range ring.length).foldl
    (fun inside i =>
      let p1 := ring.getD i (0, 0)
      let p2 := ring.getD ((i + 1) % ring.length) (0, 0)
      if rayCrossesEdge q p1 p2 then !inside else inside)
    false

/-- Modelled from the spec: a polygon contains `q` when `q` is inside the
exterior ring (the first ring) and outside all hole rings (the rest). -/
def polygonContains (poly : Polygon2D) (q : ℚ × ℚ) : Bool :=
  match poly with
  | [] => false
  | exterior :: holes => ringContains exterior q && holes.all (fun hole => !ringContains hole q)

/-- Modelled from the spec: `planar.MultiPolygonContains` — some polygon of the
multipolygon contains the point. -/
def multiPolygonContains (mp : MultiPolygon2D) (q : ℚ × ℚ) : Bool :=
  mp.any (fun poly => polygonContains poly q)

/-- The scan loop of `NaturalEarthData.FindCountryAtPoint`: first country whose
geometry contains the point, in list order. -/
def findCountryLoop : List CountryData → ℚ × ℚ → String
  | [], _ => ""
  | c :: rest, point =>
      if multiPolygonContains c.Geometry point then c.Name else findCountryLoop rest point

/-- `NaturalEarthData.FindCountryAtPoint` from internal/resources/resources.go:
builds the orb point (`[lng, lat]` order) and scans the loaded countries. -/
def FindCountryAtPoint (ne : NaturalEarthData) (lat lng : ℚ) : String :=
  findCountryLoop ne.Countries (lng, lat)

/-! ## Low-level raster primitives (internal/resources `fillPolygon`,
`fillPolygonAlpha`, `drawLine`)

The RGBA / alpha raster itself is left abstract: each primitive is embedded as
the list of pixel positions it writes (`img.Set` / `img.SetAlpha` calls), in
emission order, for an image allocated as `image.Rect(0, 0, width, height)`. -/

/-- Go loop `for v := a; v <= b; v++` as the list of visited values. -/
def intRange (a b : Int) : List Int :=
  (List.range (b + 1 - a).toNat).map (fun i => a + (i : Int))

/-- `findIntersections` from internal/resources/resources.go: x-intersections
of the polygon's edges with the horizontal scanline at `y`. Go `int` division
truncates toward zero (`Int.tdiv`). -/
def findIntersections (points : List (Int × Int)) (y : Int) : List Int :=
  (List.range points.length).filterMap (fun i =>
    let p1 := points.getD i (0, 0)
    let p2 := points.getD ((i + 1) % points.length) (0, 0)
    if (p1.2 ≤ y ∧ p2.2 > y) ∨ (p2.2 ≤ y ∧ p1.2 > y) then
      if p2.2 ≠ p1.2 then
        some (p1.1 + Int.tdiv ((y - p1.2) * (p2.1 - p1.1)) (p2.2 - p1.2))
      else
        none
    else
      none)

/-- Insertion into an ascending list, for `sortAsc`. -/
def insertAsc (x : Int) : List Int → List Int
  | [] => [x]
  | y :: rest => if x ≤ y then x :: y :: rest else y :: insertAsc x rest

/-- The in-place exchange sort both fill routines run over the intersection
list, modelled as an insertion sort: on integers both produce the ascending
reordering of the input. -/
def sortAsc : List Int → List Int
  | [] => []
  | x :: rest => insertAsc x (sortAsc rest)

/-- Go loop `for i := 0; i < len(l)-1; i += 2` pairing `l[i]` with `l[i+1]`. -/
def spanPairs : List Int → List (Int × Int)
  | x1 :: x2 :: rest => (x1, x2) :: spanPairs rest
  | _ => []

/-- The span-filling inner loop shared by `fillPolygon` and
`fillPolygonAlpha`: clamp the pair to the image, then write each pixel of the
span that passes the per-pixel bounds guard. -/
def fillSpanWrites (y x1 x2 width height : Int) : List (Int × Int) :=
  let x1c := if x1 < 0 then 0 else x1
  let x2c := if x2 ≥ width then width - 1 else x2
  (intRange x1c x2c).filterMap (fun x =>
    if 0 ≤ x ∧ x < width ∧ 0 ≤ y ∧ y < height then some (x, y) else none)

/-- One scanline of the fill routines: intersections, ascending sort, spans. -/
def scanlineWrites (points : List (Int × Int)) (y width height : Int) :
    List (Int × Int) :=
  let intersections := findIntersections points y
  if intersections.length < 2 then
    []
  else
    ((spanPairs (sortAsc intersections)).map
      (fun p => fillSpanWrites y p.1 p.2 width height)).flatten

/-- The vertex-projection loop shared by both fill routines:
`geoToPixel(coord[1], coord[0], width, height)` truncated to `image.Point`. -/
def projectRing (ring : Ring2D) (width height : Int) : List (Int × Int) :=
  ring.map (fun coord =>
    let xy := geoToPixel coord.2 coord.1 width height
    (goInt xy.1, goInt xy.2))

/-- The scanline body shared verbatim by `fillPolygon` and `fillPolygonAlpha`:
project the ring, bound the scanlines by the vertices' y range clamped to the
image, and emit each scanline's writes. -/
def scanPolygonWrites (ring : Ring2D) (width height : Int) : List (Int × Int) :=
  if ring.length < 3 then
    []
  else
    let points := projectRing ring width height
    let headY := (points.headD (0, 0)).2
    let minY0 := (points.map (fun p => p.2)).foldl min headY
    let maxY0 := (points.map (fun p => p.2)).foldl max headY
    let minY := if minY0 < 0 then 0 else minY0
    let maxY := if maxY0 ≥ height then height - 1 else maxY0
    ((intRange minY maxY).map (fun y => scanlineWrites points y width height)).flatten

/-- `fillPolygon` from internal/resources/resources.go: the positions written
with `fillColor` into the RGBA image. -/
def fillPolygonWrites (ring : Ring2D) (fillColor : RGBA) (width height : Int) :
    List (Int × Int) :=
  scanPolygonWrites ring width height

/-- `fillPolygonAlpha` from internal/resources/resources.go: the positions
written with the alpha value into the alpha mask; same control flow as
`fillPolygon`. -/
def fillPolygonAlphaWrites (ring : Ring2D) (alpha : Int) (width height : Int) :
    List (Int × Int) :=
  scanPolygonWrites ring width height

/-- The Bresenham loop of `drawLine`, with explicit fuel bounding the number of
iterations (`dx + dy + 1` suffices: every non-final iteration moves `x` or `y`
by one step). Each iteration emits its guarded write, stops at the endpoint,
and otherwise updates the error term and coordinates exactly as the source. -/
def drawLineLoop (width height x2 y2 sx sy dx dy : Int) :
    Nat → Int → Int → Int → List (Int × Int)
  | 0, _, _, _ => []
  | fuel + 1, x, y, err =>
      let write := if 0 ≤ x ∧ x < width ∧ 0 ≤ y ∧ y < height then [(x, y)] else []
      if x = x2 ∧ y = y2 then
        write
      else
        let e2 := 2 * err
        let err1 := if e2 > -dy then err - dy else err
        let xn := if e2 > -dy then x + sx else x
        let err2 := if e2 < dx then err1 + dx else err1
        let yn := if e2 < dx then y + sy else y
        write ++ drawLineLoop width height x2 y2 sx sy dx dy fuel xn yn err2

/-- `drawLine` from internal/resources/resources.go: the positions written with
`col` into an image whose bounds are `width × height`. -/
def drawLineWrites (x1 y1 x2 y2 : Int) (col : RGBA) (width height : Int) :
    List (Int × Int) :=
  let dx := |x2 - x1|
  let dy := |y2 - y1|
  let sx : Int := if x1 < x2 then 1 else -1
  let sy : Int := if y1 < y2 then 1 else -1
  drawLineLoop width height x2 y2 sx sy dx dy (dx + dy + 1).toNat x1 y1 (dx - dy)

/-- A pixel position lies inside the `width × height` image. -/
def inBoundsB (width height : Int) (p : Int × Int) : Bool :=
  decide (0 ≤ p.1 ∧ p.1 < width ∧ 0 ≤ p.2 ∧ p.2 < height)

/-! ## Helper lemmas on the game-state map -/

theorem mem_setCountry {m : List (String × CountryGameState)} {c : String}
    {v : CountryGameState} {p : String × CountryGameState}
    (hp : p ∈ setCountry m c v) : p ∈ m ∨ p = (c, v) := by
  induction m with
  | nil =>
      simp only [setCountry, List.mem_singleton] at hp
      exact Or.inr hp
  | cons q rest ih =>
      obtain ⟨k, w⟩ := q
      by_cases hk : k = c
      · simp only [setCountry, if_pos hk, List.mem_cons] at hp
        rcases hp with h | h
        · subst hk; exact Or.inr h
        · exact Or.inl (List.mem_cons_of_mem _ h)
      · simp only [setCountry, if_neg hk, List.mem_cons] at hp
        rcases hp with h | h
        · exact Or.inl (h ▸ List.mem_cons_self _ _)
        · rcases ih h with h2 | h2
          · exact Or.inl (List.mem_cons_of_mem _ h2)
          · exact Or.inr h2

theorem mem_getOrInit_fst {m : List (String × CountryGameState)} {c : String}
    {p : String × CountryGameState} (hp : p ∈ (getOrInit m c).1) :
    p ∈ m ∨ p = (c, zeroCountryState) := by
  unfold getOrInit at hp
  cases h : lookupCountry m c with
  | some st => rw [h] at hp; exact Or.inl hp
  | none =>
      rw [h] at hp
      simp only [List.mem_append, List.mem_singleton] at hp
      exact hp

theorem getOrInit_of_lookup {m : List (String × CountryGameState)} {c : String}
    {st : CountryGameState} (h : lookupCountry m c = some st) :
    getOrInit m c = (m, st) := by
  unfold getOrInit; rw [h]

theorem getOrInit_snd (m : List (String × CountryGameState)) (c : String) :
    (getOrInit m c).2 = (lookupCountry m c).getD zeroCountryState := by
  unfold getOrInit
  cases h : lookupCountry m c <;> simp

/-! ## Claims about the game-state engine -/

/-- C2: for a country whose stored state is already boring, a call to
`AddCountryHitWithTargetCheck` leaves the whole game state — the country's
entry (hitCount, boring, lastHit), the rest of the map, and both target
fields — unchanged, and returns `becameBoring = false` (and
`wasTarget = false`). -/
theorem C2_addHit_on_boring_is_noop (gs : GameState) (country : String) (now : Int)
    (st : CountryGameState) (hlook : lookupCountry gs.countries country = some st)
    (hboring : st.Boring = true) :
    GameState.AddCountryHitWithTargetCheck gs country now = (gs, false, false) := by
  unfold GameState.AddCountryHitWithTargetCheck
  rw [getOrInit_of_lookup hlook]
  simp [hboring]

/-- Concrete run of `C2_addHit_on_boring_is_noop` on a one-country state whose
entry is boring. -/
theorem C2_addHit_on_boring_is_noop_witness :
    lookupCountry [("Japan", { HitCount := 10, Boring := true, LastHit := 7 })] "Japan" =
      some { HitCount := 10, Boring := true, LastHit := 7 } ∧
    ({ HitCount := 10, Boring := true, LastHit := 7 } : CountryGameState).Boring = true ∧
    GameState.AddCountryHitWithTargetCheck
      { countries := [("Japan", { HitCount := 10, Boring := true, LastHit := 7 })],
        targetCountry := "Chile", targetSetAt := 2 } "Japan" 9 =
      ({ countries := [("Japan", { HitCount := 10, Boring := true, LastHit := 7 })],
         targetCountry := "Chile", targetSetAt := 2 }, false, false) :=
  ⟨by decide, by decide,
    C2_addHit_on_boring_is_noop _ "Japan" 9
      { HitCount := 10, Boring := true, LastHit := 7 } (by decide) (by decide)⟩

/-- C9: for a country whose stored state is already boring,
`MarkCountryAsBoring` leaves the whole game state unchanged — even when that
country equals the active target — and returns `(wasTarget, targetCountry) =
(false, "")`, so a repeated mark-boring request can neither clear the target
nor re-enter the fastest-traveler path (which is guarded by `wasTarget`). -/
theorem C9_markBoring_on_boring_is_noop (gs : GameState) (country : String) (now : Int)
    (st : CountryGameState) (hlook : lookupCountry gs.countries country = some st)
    (hboring : st.Boring = true) :
    GameState.MarkCountryAsBoring gs country now = (gs, false, "") := by
  unfold GameState.MarkCountryAsBoring
  rw [getOrInit_of_lookup hlook]
  simp [hboring]

/-- Concrete run of `C9_markBoring_on_boring_is_noop` on a state whose boring
country is also the active target: the target survives. -/
theorem C9_markBoring_on_boring_is_noop_witness :
    lookupCountry [("Japan", { HitCount := 0, Boring := true, LastHit := 7 })] "Japan" =
      some { HitCount := 0, Boring := true, LastHit := 7 } ∧
    ({ HitCount := 0, Boring := true, LastHit := 7 } : CountryGameState).Boring = true ∧
    GameState.MarkCountryAsBoring
      { countries := [("Japan", { HitCount := 0, Boring := true, LastHit := 7 })],
        targetCountry := "Japan", targetSetAt := 2 } "Japan" 9 =
      ({ countries := [("Japan", { HitCount := 0, Boring := true, LastHit := 7 })],
         targetCountry := "Japan", targetSetAt := 2 }, false, "") :=
  ⟨by decide, by decide,
    C9_markBoring_on_boring_is_noop _ "Japan" 9
      { HitCount := 0, Boring := true, LastHit := 7 } (by decide) (by decide)⟩

/-- Entries of the map after `AddCountryHit`: each entry was already stored,
is the freshly created zero entry, or satisfies the boring/hit-count bound. -/
theorem addCountryHit_member (gs : GameState) (country : String) (now : Int)
    {p : String × CountryGameState}
    (hp : p ∈ (GameState.AddCountryHit gs country now).countries) :
    p ∈ gs.countries ∨ p = (country, zeroCountryState) ∨
      (p.2.Boring = true → 10 ≤ p.2.HitCount) := by
  unfold GameState.AddCountryHit at hp
  by_cases hB : (getOrInit gs.countries country).2.Boring
  · simp only [hB, Bool.not_true, if_neg, Bool.false_eq_true, not_false_eq_true] at hp
    rcases mem_getOrInit_fst hp with h | h
    · exact Or.inl h
    · exact Or.inr (Or.inl h)
  · simp only [Bool.not_eq_true] at hB
    simp only [hB, Bool.not_false, if_pos] at hp
    rcases mem_setCountry hp with h | h
    · rcases mem_getOrInit_fst h with h2 | h2
      · exact Or.inl h2
      · exact Or.inr (Or.inl h2)
    · refine Or.inr (Or.inr ?_)
      intro hb
      by_cases h10 : (getOrInit gs.countries country).2.HitCount + 1 ≥ 10
      · rw [h]
        simp only [if_pos h10]
        exact h10
      · rw [h] at hb
        simp only [if_neg h10] at hb
        exact absurd hb (by simp)

/-- Entries of the map after `AddCountryHitWithTargetCheck`: same case split as
for `AddCountryHit`. -/
theorem addCountryHitTC_member (gs : GameState) (country : String) (now : Int)
    {p : String × CountryGameState}
    (hp : p ∈ (GameState.AddCountryHitWithTargetCheck gs country now).1.countries) :
    p ∈ gs.countries ∨ p = (country, zeroCountryState) ∨
      (p.2.Boring = true → 10 ≤ p.2.HitCount) := by
  unfold GameState.AddCountryHitWithTargetCheck at hp
  by_cases hB : (getOrInit gs.countries country).2.Boring
  · simp only [hB, Bool.not_true, if_neg, Bool.false_eq_true, not_false_eq_true] at hp
    rcases mem_getOrInit_fst hp with h | h
    · exact Or.inl h
    · exact Or.inr (Or.inl h)
  · simp only [Bool.not_eq_true] at hB
    simp only [hB, Bool.not_false, if_pos] at hp
    by_cases h10 : (getOrInit gs.countries country).2.HitCount + 1 ≥ 10
    · simp only [if_pos h10] at hp
      by_cases ht : gs.targetCountry = country
      · simp only [if_pos ht] at hp
        rcases mem_setCountry hp with h | h
        · rcases mem_getOrInit_fst h with h2 | h2
          · exact Or.inl h2
          · exact Or.inr (Or.inl h2)
        · exact Or.inr (Or.inr (fun _ => by rw [h]; exact h10))
      · simp only [if_neg ht] at hp
        rcases mem_setCountry hp with h | h
        · rcases mem_getOrInit_fst h with h2 | h2
          · exact Or.inl h2
          · exact Or.inr (Or.inl h2)
        · exact Or.inr (Or.inr (fun _ => by rw [h]; exact h10))
    · simp only [if_neg h10] at hp
      rcases mem_setCountry hp with h | h
      · rcases mem_getOrInit_fst h with h2 | h2
        · exact Or.inl h2
        · exact Or.inr (Or.inl h2)
      · refine Or.inr (Or.inr ?_)
        intro hb
        rw [h] at hb
        simp at hb

/-- C1 fails as stated: starting from the (reachable) initial game state, which
satisfies the invariant, a single `MarkCountryAsBoring` — one of the three
operations the claim covers — produces an entry with `Boring = true` and
`HitCount = 0 < 10`. -/
theorem C1_boring_invariant_counterexample :
    BoringHitInvariant { countries := [], targetCountry := "", targetSetAt := 0 } ∧
    ¬ BoringHitInvariant
        (GameState.MarkCountryAsBoring
          { countries := [], targetCountry := "", targetSetAt := 0 } "Portugal" 1).1 := by
  decide

/-- C1 (amended): the invariant "boring implies at least 10 hits" holds of
every entry after `AddCountryHit` or `AddCountryHitWithTargetCheck` whenever it
held before; `MarkCountryAsBoring` does not preserve it (it marks a country
boring at any hit count, see the counterexample). -/
theorem C1_boring_invariant_preserved (gs : GameState) (country : String) (now : Int)
    (hinv : BoringHitInvariant gs) :
    BoringHitInvariant (GameState.AddCountryHit gs country now) ∧
    BoringHitInvariant (GameState.AddCountryHitWithTargetCheck gs country now).1 := by
  constructor
  · intro p hp hb
    rcases addCountryHit_member gs country now hp with h | h | h
    · exact hinv p h hb
    · rw [h] at hb; exact absurd hb (by simp [zeroCountryState])
    · exact h hb
  · intro p hp hb
    rcases addCountryHitTC_member gs country now hp with h | h | h
    · exact hinv p h hb
    · rw [h] at hb; exact absurd hb (by simp [zeroCountryState])
    · exact h hb

/-- Concrete run of `C1_boring_invariant_preserved`: a ninth and a tenth hit on
a country with 8 hits both preserve the invariant. -/
theorem C1_boring_invariant_preserved_witness :
    BoringHitInvariant
      { countries := [("Kenya", { HitCount := 8, Boring := false, LastHit := 4 })],
        targetCountry := "", targetSetAt := 0 } ∧
    (BoringHitInvariant
      (GameState.AddCountryHit
        { countries := [("Kenya", { HitCount := 8, Boring := false, LastHit := 4 })],
          targetCountry := "", targetSetAt := 0 } "Kenya" 5) ∧
     BoringHitInvariant
      (GameState.AddCountryHitWithTargetCheck
        { countries := [("Kenya", { HitCount := 8, Boring := false, LastHit := 4 })],
          targetCountry := "", targetSetAt := 0 } "Kenya" 5).1) :=
  ⟨by decide, C1_boring_invariant_preserved _ "Kenya" 5 (by decide)⟩

/-- A one-country state used by the concrete target-clearing run: the target
country "Kenya" has 9 hits and is not yet boring. -/
def sampleTargetState : GameState :=
  { countries := [("Kenya", { HitCount := 9, Boring := false, LastHit := 4 })],
    targetCountry := "Kenya", targetSetAt := 6 }

/-- C3: at most one country is ever the active target (the target is a single
string field), and whenever a country that is the current target becomes boring
— automatically, because `AddCountryHitWithTargetCheck` reaches 10 hits, or
manually through `MarkCountryAsBoring` — the same operation clears the target
to the empty string with the zero set-time. -/
theorem C3_target_cleared_on_boring (gs : GameState) (country : String) (now : Int) :
    (∀ c1 c2 : String, ActiveTarget gs c1 → ActiveTarget gs c2 → c1 = c2) ∧
    ((countryStateD gs country).Boring = false →
      10 ≤ (countryStateD gs country).HitCount + 1 →
      gs.targetCountry = country →
      (GameState.AddCountryHitWithTargetCheck gs country now).1.targetCountry = "" ∧
      (GameState.AddCountryHitWithTargetCheck gs country now).1.targetSetAt = 0) ∧
    ((countryStateD gs country).Boring = false →
      gs.targetCountry = country →
      (GameState.MarkCountryAsBoring gs country now).1.targetCountry = "" ∧
      (GameState.MarkCountryAsBoring gs country now).1.targetSetAt = 0) := by
  have hsnd : (getOrInit gs.countries country).2 = countryStateD gs country :=
    getOrInit_snd gs.countries country
  refine ⟨?_, ?_, ?_⟩
  · rintro c1 c2 ⟨h1, _⟩ ⟨h2, _⟩
    rw [← h1, h2]
  · intro hB h10 ht
    simp only [GameState.AddCountryHitWithTargetCheck]
    rw [hsnd, hB]
    simp [ht, if_pos (show (countryStateD gs country).HitCount + 1 ≥ 10 from h10)]
  · intro hB ht
    simp only [GameState.MarkCountryAsBoring]
    rw [hsnd, hB]
    simp [ht]

/-- Concrete run of `C3_target_cleared_on_boring`: the tenth hit on the target
country clears the target, and so does a manual mark-boring. -/
theorem C3_target_cleared_on_boring_witness :
    ((countryStateD sampleTargetState "Kenya").Boring = false ∧
     10 ≤ (countryStateD sampleTargetState "Kenya").HitCount + 1 ∧
     sampleTargetState.targetCountry = "Kenya") ∧
    ((GameState.AddCountryHitWithTargetCheck sampleTargetState "Kenya" 7).1.targetCountry = "" ∧
     (GameState.AddCountryHitWithTargetCheck sampleTargetState "Kenya" 7).1.targetSetAt = 0) ∧
    ((GameState.MarkCountryAsBoring sampleTargetState "Kenya" 7).1.targetCountry = "" ∧
     (GameState.MarkCountryAsBoring sampleTargetState "Kenya" 7).1.targetSetAt = 0) :=
  ⟨⟨by decide, by decide, by decide⟩,
    (C3_target_cleared_on_boring sampleTargetState "Kenya" 7).2.1
      (by decide) (by decide) (by decide),
    (C3_target_cleared_on_boring sampleTargetState "Kenya" 7).2.2
      (by decide) (by decide)⟩

/-! ## Claims about achievement updating -/

theorem updateAchievement_ID (a : Achievement) (c : String) (t : Int) :
    (updateAchievement a c t).1.ID = a.ID := by
  unfold updateAchievement
  by_cases hu : a.Unlocked = true
  · simp [hu]
  · simp only [Bool.not_eq_true] at hu
    cases hC : a.Countries <;> simp [hu, hC] <;> split_ifs <;> rfl

theorem updateAchievement_of_unlocked {a : Achievement} (c : String) (t : Int)
    (ha : a.Unlocked = true) : updateAchievement a c t = (a, false) := by
  simp [updateAchievement, ha]

theorem UpdateProgress_fst (am : List Achievement) (c : String) (t : Int) :
    (UpdateProgress am c t).1 = am.map (fun b => (updateAchievement b c t).1) := by
  induction am with
  | nil => rfl
  | cons a rest ih => simp [UpdateProgress, ih]

theorem mem_UpdateProgress_unlocks {am : List Achievement} {c : String} {t : Int}
    {x : String} (hx : x ∈ (UpdateProgress am c t).2) : x ∈ am.map Achievement.ID := by
  induction am with
  | nil => simp [UpdateProgress] at hx
  | cons a rest ih =>
      simp only [UpdateProgress, List.mem_append] at hx
      rcases hx with h | h
      · by_cases he : (updateAchievement a c t).2 = true
        · rw [if_pos he] at h
          simp only [List.mem_singleton] at h
          rw [h, updateAchievement_ID]
          simp
        · simp only [Bool.not_eq_true] at he
          simp [he] at h
      · simp [ih h]

theorem unlocked_ID_not_in_unlocks {c : String} {t : Int} {a : Achievement}
    (ha : a.Unlocked = true) :
    ∀ am : List Achievement, (am.map Achievement.ID).Nodup → a ∈ am →
      a.ID ∉ (UpdateProgress am c t).2 := by
  intro am
  induction am with
  | nil => intro _ hmem; simp at hmem
  | cons b rest ih =>
      intro hnd hmem hin
      simp only [List.map_cons, List.nodup_cons] at hnd
      simp only [UpdateProgress, List.mem_append] at hin
      rcases List.mem_cons.mp hmem with rfl | hmem_rest
      · rcases hin with h | h
        · rw [updateAchievement_of_unlocked c t ha] at h
          simp at h
        · exact hnd.1 (mem_UpdateProgress_unlocks h)
      · rcases hin with h | h
        · by_cases he : (updateAchievement b c t).2 = true
          · rw [if_pos he] at h
            simp only [List.mem_singleton] at h
            rw [updateAchievement_ID] at h
            exact hnd.1 (h ▸ List.mem_map_of_mem Achievement.ID hmem_rest)
          · simp only [Bool.not_eq_true] at he
            simp [he] at h
        · exact ih hnd.2 hmem_rest h

/-- C7: achievement unlocking is monotonic and idempotent. An unlocked
achievement passes through the `UpdateProgress` loop body untouched (its
`Unlocked` flag and `Progress` are unchanged and it emits no new unlock);
`UpdateProgress` is exactly that loop body mapped over the manager's
achievements; and — the manager's map keys being distinct — an unlocked
achievement's ID never appears in the returned `newUnlocks` list. -/
theorem C7_unlock_monotonic_idempotent (am : List Achievement) (countryName : String)
    (total : Int) (a : Achievement) (ha : a.Unlocked = true) :
    updateAchievement a countryName total = (a, false) ∧
    (UpdateProgress am countryName total).1 =
      am.map (fun b => (updateAchievement b countryName total).1) ∧
    ((am.map Achievement.ID).Nodup → a ∈ am →
      a.ID ∉ (UpdateProgress am countryName total).2) :=
  ⟨updateAchievement_of_unlocked countryName total ha,
    UpdateProgress_fst am countryName total,
    fun hnd hmem => unlocked_ID_not_in_unlocks ha am hnd hmem⟩

/-- An already-unlocked region achievement next to a locked one, for the
concrete run of `C7_unlock_monotonic_idempotent`. -/
def sampleUnlockedAchievement : Achievement :=
  { ID := "europe_explorer", Name := "European Explorer",
    Description := "Visit all countries in Europe", Unlocked := true,
    Progress := 50, Target := 50, Countries := some ["Germany", "France"] }

/-- A locked achievement, for the concrete run of
`C7_unlock_monotonic_idempotent`. -/
def sampleLockedAchievement : Achievement :=
  { ID := "world_traveler", Name := "World Traveler",
    Description := "Visit 100 different countries", Unlocked := false,
    Progress := 3, Target := 100, Countries := none }

/-- Concrete run of `C7_unlock_monotonic_idempotent` on a two-achievement
manager whose first achievement is already unlocked. -/
theorem C7_unlock_monotonic_idempotent_witness :
    sampleUnlockedAchievement.Unlocked = true ∧
    (([sampleUnlockedAchievement, sampleLockedAchievement].map Achievement.ID).Nodup ∧
     sampleUnlockedAchievement ∈ [sampleUnlockedAchievement, sampleLockedAchievement]) ∧
    (updateAchievement sampleUnlockedAchievement "France" 4 =
        (sampleUnlockedAchievement, false) ∧
     sampleUnlockedAchievement.ID ∉
        (UpdateProgress [sampleUnlockedAchievement, sampleLockedAchievement] "France" 4).2) :=
  ⟨by decide, ⟨by decide, by decide⟩,
    (C7_unlock_monotonic_idempotent
      [sampleUnlockedAchievement, sampleLockedAchievement] "France" 4
      sampleUnlockedAchievement (by decide)).1,
    (C7_unlock_monotonic_idempotent
      [sampleUnlockedAchievement, sampleLockedAchievement] "France" 4
      sampleUnlockedAchievement (by decide)).2.2 (by decide) (by decide)⟩

/-! ## Claims about the text overlay renderer -/

theorem GetFont_of_empty (name : String) : GetFont { fonts := [] } name = none := by
  by_cases hn : name = ""
  · subst hn; rfl
  · simp [GetFont, lookupFont, hn]

theorem pickPanelFont_of_empty : pickPanelFont { fonts := [] } = none := by
  unfold pickPanelFont
  simp [GetFont_of_empty]

/-- Reduction of `DrawGameInfoRectangle` once the font manager is present. -/
theorem DrawGameInfoRectangle_some {Raster : Type} (img : Raster) (fmv : FontManager)
    (x y width height : Int) (lines : List String) (config : GameInfoConfig)
    (drawText : Raster → Raster) :
    DrawGameInfoRectangle img (some fmv) x y width height lines config drawText =
      (match pickPanelFont fmv with
       | none => (Except.error "no fonts available", img)
       | some _ =>
           if width ≤ 0 ∨ height ≤ 0 then
             (Except.error "invalid rectangle dimensions", img)
           else if config.TextColor.A = 0 then
             (Except.error "text color has zero alpha - text would be invisible", img)
           else (Except.ok (), drawText img)) := rfl

/-- C8: `DrawGameInfoRectangle` returns an error and leaves the raster
untouched whenever the font manager is missing or has no fonts, the requested
width or height is not positive, or the requested text color has zero alpha;
being a total function of its inputs, it cannot crash in these cases. -/
theorem C8_drawGameInfo_rejects_bad_input (Raster : Type) (img : Raster)
    (fm : Option FontManager) (x y width height : Int) (lines : List String)
    (config : GameInfoConfig) (drawText : Raster → Raster)
    (h : fm = none ∨ fm = some { fonts := [] } ∨ width ≤ 0 ∨ height ≤ 0 ∨
         config.TextColor.A = 0) :
    ∃ msg, DrawGameInfoRectangle img fm x y width height lines config drawText =
      (Except.error msg, img) := by
  cases fm with
  | none => exact ⟨"font manager is nil", rfl⟩
  | some fmv =>
      rcases h with h | h | h | h | h
      · cases h
      · injection h with h2
        subst h2
        exact ⟨"no fonts available", by
          rw [DrawGameInfoRectangle_some, pickPanelFont_of_empty]⟩
      · cases hfont : pickPanelFont fmv with
        | none =>
            exact ⟨"no fonts available", by rw [DrawGameInfoRectangle_some, hfont]⟩
        | some f =>
            refine ⟨"invalid rectangle dimensions", ?_⟩
            rw [DrawGameInfoRectangle_some, hfont]
            dsimp only
            rw [if_pos (Or.inl h)]
      · cases hfont : pickPanelFont fmv with
        | none =>
            exact ⟨"no fonts available", by rw [DrawGameInfoRectangle_some, hfont]⟩
        | some f =>
            refine ⟨"invalid rectangle dimensions", ?_⟩
            rw [DrawGameInfoRectangle_some, hfont]
            dsimp only
            rw [if_pos (Or.inr h)]
      · cases hfont : pickPanelFont fmv with
        | none =>
            exact ⟨"no fonts available", by rw [DrawGameInfoRectangle_some, hfont]⟩
        | some f =>
            rw [DrawGameInfoRectangle_some, hfont]
            dsimp only
            by_cases hd : width ≤ 0 ∨ height ≤ 0
            · exact ⟨"invalid rectangle dimensions", by rw [if_pos hd]⟩
            · exact ⟨"text color has zero alpha - text would be invisible", by
                rw [if_neg hd, if_pos h]⟩

/-- A well-formed panel configuration used by the concrete run of
`C8_drawGameInfo_rejects_bad_input`. -/
def sampleConfig : GameInfoConfig :=
  { BackgroundColor := { R := 0, G := 0, B := 0, A := 255 },
    TextColor := { R := 255, G := 255, B := 255, A := 255 },
    BorderColor := { R := 0, G := 0, B := 0, A := 255 },
    FontSize := 16, Padding := 10, BorderWidth := 2 }

/-- Concrete run of `C8_drawGameInfo_rejects_bad_input`: a nil font manager is
rejected and the raster (an integer here) is returned unchanged. -/
theorem C8_drawGameInfo_rejects_bad_input_witness :
    ((none : Option FontManager) = none ∨ (none : Option FontManager) = some { fonts := [] } ∨
      (60 : Int) ≤ 0 ∨ (20 : Int) ≤ 0 ∨ sampleConfig.TextColor.A = 0) ∧
    ∃ msg, DrawGameInfoRectangle (7 : Int) none 1 2 60 20 ["GAME STATUS"] sampleConfig id =
      (Except.error msg, 7) :=
  ⟨Or.inl rfl,
    C8_drawGameInfo_rejects_bad_input Int 7 none 1 2 60 20 ["GAME STATUS"] sampleConfig id
      (Or.inl rfl)⟩

/-! ## Claims about the point-in-polygon locator -/

/-- C5: `FindCountryAtPoint` returns the name of the first country of the
loaded list whose multipolygon contains the query point — containment being
"inside the exterior ring and outside all hole rings" of some polygon — and
the empty string when no loaded country contains the point. -/
theorem C5_findCountry_first_match (ne : NaturalEarthData) (lat lng : ℚ) :
    FindCountryAtPoint ne lat lng =
      (((ne.Countries.find? fun c => multiPolygonContains c.Geometry (lng, lat)).map
        fun c => c.Name).getD "") := by
  unfold FindCountryAtPoint
  induction ne.Countries with
  | nil => rfl
  | cons c rest ih =>
      by_cases hc : multiPolygonContains c.Geometry (lng, lat) = true
      · simp [findCountryLoop, hc]
      · simp only [Bool.not_eq_true] at hc
        simp [findCountryLoop, hc, ih]

/-! ## Claims about the coordinate projection -/

/-- C6 (amended): `geoToPixel` and `latLngToMapCoords` compute the identical
equirectangular transform `x = (lng + 180) · width / 360`,
`y = (90 − lat) · height / 180`; for positive dimensions the inverse transform
recovers the original point exactly on the real-valued output; and the sample
point lat = 40, lng = −74 at 1000 × 500 lands on pixel (294, 138) after
truncation to integers (truncation rounds 138.8 down, not to 139). -/
theorem C6_projection_roundtrip (lat lng : ℚ) (width height : Int) :
    geoToPixel lat lng width height =
      ((lng + 180) * (width : ℚ) / 360, (90 - lat) * (height : ℚ) / 180) ∧
    latLngToMapCoords lat lng width height = geoToPixel lat lng width height ∧
    (0 < width → 0 < height →
      (geoToPixel lat lng width height).1 * 360 / (width : ℚ) - 180 = lng ∧
      90 - (geoToPixel lat lng width height).2 * 180 / (height : ℚ) = lat) ∧
    (goInt (geoToPixel 40 (-74) 1000 500).1 = 294 ∧
     goInt (geoToPixel 40 (-74) 1000 500).2 = 138) := by
  refine ⟨rfl, rfl, ?_, ?_, ?_⟩
  · intro hw hh
    have hw0 : (width : ℚ) ≠ 0 := Int.cast_ne_zero.mpr (by omega)
    have hh0 : (height : ℚ) ≠ 0 := Int.cast_ne_zero.mpr (by omega)
    constructor
    · unfold geoToPixel
      field_simp
    · unfold geoToPixel
      field_simp
  · have : (geoToPixel 40 (-74) 1000 500).1 = 2650 / 9 := by
      unfold geoToPixel; norm_num
    rw [this, goInt, if_pos (by norm_num)]
    norm_num
  · have : (geoToPixel 40 (-74) 1000 500).2 = 1250 / 9 := by
      unfold geoToPixel; norm_num
    rw [this, goInt, if_pos (by norm_num)]
    norm_num

/-- C6 fails only at the sample pixel: the y value 1250/9 ≈ 138.9 truncates to
138, not to the 139 the claim names. -/
theorem C6_pixel_truncation_counterexample :
    goInt (geoToPixel 40 (-74) 1000 500).2 = 138 ∧ (138 : Int) ≠ 139 := by
  constructor
  · have : (geoToPixel 40 (-74) 1000 500).2 = 1250 / 9 := by
      unfold geoToPixel; norm_num
    rw [this, goInt, if_pos (by norm_num)]
    norm_num
  · decide

/-- Concrete run of `C6_projection_roundtrip`: the inverse transform recovers
lat = 40, lng = −74 at the 1000 × 500 raster exactly. -/
theorem C6_projection_roundtrip_witness :
    ((0 : Int) < 1000 ∧ (0 : Int) < 500) ∧
    ((geoToPixel 40 (-74) 1000 500).1 * 360 / ((1000 : Int) : ℚ) - 180 = -74 ∧
     90 - (geoToPixel 40 (-74) 1000 500).2 * 180 / ((500 : Int) : ℚ) = 40) :=
  ⟨⟨by decide, by decide⟩,
    (C6_projection_roundtrip 40 (-74) 1000 500).2.2.1 (by decide) (by decide)⟩

/-! ## Claims about the country fill selection -/

/-- For 1..9 hits the warm ramp color never equals the bright-red boring color
(its green channel stays at 105 or above). -/
theorem getCountryHitColor_ne_red {h : Int} (h1 : 1 ≤ h) (h2 : h < 10) :
    getCountryHitColor h ≠ { R := 255, G := 50, B := 50, A := 200 } := by
  interval_cases h <;>
    · intro heq
      have hG := congrArg RGBA.G heq
      rw [getCountryHitColor, if_neg (by norm_num)] at hG
      dsimp only at hG
      rw [goInt, if_pos (by norm_num)] at hG
      norm_num at hG

/-- C4 (amended): `RenderNaturalEarthMap` paints a country through the
texture-fill (flag) path exactly when its hit count lies in [1, 10) — that is,
1 ≤ h ≤ 9, not the claimed [1, 9) — a flag manager is loaded, the alpha-2 code
is known and a flag bitmap exists for it; and for every hit count in [1, 10)
the selected representation is a non-boring one (a flag fill or the warm ramp,
never the sand/rocks gradient or the bright-red boring color). -/
theorem C4_texture_fill_selection (hitCount : Int)
    (isBoring hasFlagManager flagAvailable recentlyHit black : Bool) (alpha2 : String) :
    ((∃ g, selectCountryFill hitCount isBoring hasFlagManager alpha2 flagAvailable
        recentlyHit black = CountryFill.flagFill g) ↔
      (1 ≤ hitCount ∧ hitCount < 10 ∧ hasFlagManager = true ∧ alpha2 ≠ "" ∧
        flagAvailable = true)) ∧
    (1 ≤ hitCount → hitCount < 10 →
      boringRepresentation (selectCountryFill hitCount isBoring hasFlagManager alpha2
        flagAvailable recentlyHit black) = false) := by
  constructor
  · by_cases hcond : hitCount ≥ 1 ∧ hitCount < 10 ∧ hasFlagManager = true ∧ alpha2 ≠ ""
    · by_cases hflag : flagAvailable = true
      · constructor
        · intro _
          exact ⟨hcond.1, hcond.2.1, hcond.2.2.1, hcond.2.2.2, hflag⟩
        · intro _
          exact ⟨recentlyHit, by rw [selectCountryFill, if_pos hcond, if_pos hflag]⟩
      · rw [selectCountryFill, if_pos hcond, if_neg hflag]
        constructor
        · rintro ⟨g, hg⟩
          cases hg
        · rintro ⟨_, _, _, _, hfa⟩
          exact absurd hfa hflag
    · rw [selectCountryFill, if_neg hcond]
      constructor
      · rintro ⟨g, hg⟩
        split_ifs at hg
      · rintro ⟨h1, h2, h3, h4, _⟩
        exact absurd ⟨h1, h2, h3, h4⟩ hcond
  · intro h1 h2
    rw [selectCountryFill]
    by_cases hcond : hitCount ≥ 1 ∧ hitCount < 10 ∧ hasFlagManager = true ∧ alpha2 ≠ ""
    · rw [if_pos hcond]
      by_cases hflag : flagAvailable = true
      · rw [if_pos hflag]; rfl
      · rw [if_neg hflag]
        rw [boringRepresentation, if_neg (getCountryHitColor_ne_red h1 h2)]
    · rw [if_neg hcond]
      have hb : ¬(isBoring = true ∧ hitCount ≥ 10) := by
        rintro ⟨_, h10⟩; omega
      rw [if_neg hb, if_pos (by omega : hitCount > 0)]
      rw [boringRepresentation, if_neg (getCountryHitColor_ne_red h1 h2)]

/-- C4 fails as stated at hit count 9: the code takes the flag (texture-fill)
path for a country with 9 hits and an available flag, yet 9 is not in the
claimed interval [1, 9). -/
theorem C4_texture_fill_at_nine_counterexample :
    selectCountryFill 9 false true "US" true false false = CountryFill.flagFill false ∧
    ¬((1 : Int) ≤ 9 ∧ (9 : Int) < 9) := by
  constructor
  · rw [selectCountryFill, if_pos ⟨by norm_num, by norm_num, rfl, by decide⟩, if_pos rfl]
  · decide

/-- Concrete run of `C4_texture_fill_selection`: 9 hits with a flag available
select a non-boring representation. -/
theorem C4_texture_fill_selection_witness :
    ((1 : Int) ≤ 9 ∧ (9 : Int) < 10) ∧
    boringRepresentation (selectCountryFill 9 false true "US" true false false) = false :=
  ⟨⟨by decide, by decide⟩,
    (C4_texture_fill_selection 9 false true true false false "US").2 (by decide) (by decide)⟩

/-! ## Claims about the raster primitives -/

theorem mem_guardWrite {x y width height : Int} {p : Int × Int}
    (hp : p ∈ (if 0 ≤ x ∧ x < width ∧ 0 ≤ y ∧ y < height then
        ([(x, y)] : List (Int × Int)) else [])) :
    inBoundsB width height p = true := by
  by_cases hc : 0 ≤ x ∧ x < width ∧ 0 ≤ y ∧ y < height
  · rw [if_pos hc] at hp
    simp only [List.mem_singleton] at hp
    subst hp
    simp [inBoundsB, hc]
  · rw [if_neg hc] at hp
    cases hp

theorem mem_fillSpanWrites {y x1 x2 width height : Int} {p : Int × Int}
    (hp : p ∈ fillSpanWrites y x1 x2 width height) :
    inBoundsB width height p = true := by
  unfold fillSpanWrites at hp
  simp only [List.mem_filterMap] at hp
  obtain ⟨x, _, hx⟩ := hp
  by_cases hc : 0 ≤ x ∧ x < width ∧ 0 ≤ y ∧ y < height
  · rw [if_pos hc] at hx
    injection hx with hx2
    subst hx2
    simp [inBoundsB, hc]
  · rw [if_neg hc] at hx
    cases hx

theorem mem_scanlineWrites {points : List (Int × Int)} {y width height : Int}
    {p : Int × Int} (hp : p ∈ scanlineWrites points y width height) :
    inBoundsB width height p = true := by
  unfold scanlineWrites at hp
  dsimp only at hp
  split at hp
  · cases hp
  · simp only [List.mem_flatten, List.mem_map] at hp
    obtain ⟨l, ⟨pr, _, rfl⟩, hpl⟩ := hp
    exact mem_fillSpanWrites hpl

theorem mem_scanPolygonWrites {ring : Ring2D} {width height : Int} {p : Int × Int}
    (hp : p ∈ scanPolygonWrites ring width height) :
    inBoundsB width height p = true := by
  unfold scanPolygonWrites at hp
  dsimp only at hp
  split at hp
  · cases hp
  · simp only [List.mem_flatten, List.mem_map] at hp
    obtain ⟨l, ⟨yy, _, rfl⟩, hpl⟩ := hp
    exact mem_scanlineWrites hpl

theorem mem_drawLineLoop {width height x2 y2 sx sy dx dy : Int} :
    ∀ (fuel : Nat) (x y err : Int) {p : Int × Int},
      p ∈ drawLineLoop width height x2 y2 sx sy dx dy fuel x y err →
      inBoundsB width height p = true := by
  intro fuel
  induction fuel with
  | zero => intro x y err p hp; cases hp
  | succ n ih =>
      intro x y err p hp
      rw [drawLineLoop] at hp
      split at hp
      · exact mem_guardWrite hp
      · simp only [List.mem_append] at hp
        rcases hp with hp | hp
        · exact mem_guardWrite hp
        · exact ih _ _ _ hp

/-- C10: the raster primitives only touch pixels inside the image. For every
ring (including rings whose projected vertices fall outside the image), every
fill color and alpha value, every line and every image size, all positions
written by `fillPolygon`, `fillPolygonAlpha` and `drawLine` satisfy
`0 ≤ x < width` and `0 ≤ y < height`. -/
theorem C10_raster_writes_in_bounds (ring : Ring2D) (fillColor : RGBA) (alpha : Int)
    (x1 y1 x2 y2 : Int) (col : RGBA) (width height : Int) :
    (fillPolygonWrites ring fillColor width height).all (inBoundsB width height) = true ∧
    (fillPolygonAlphaWrites ring alpha width height).all (inBoundsB width height) = true ∧
    (drawLineWrites x1 y1 x2 y2 col width height).all (inBoundsB width height) = true := by
  refine ⟨?_, ?_, ?_⟩
  · rw [List.all_eq_true]
    intro p hp
    exact mem_scanPolygonWrites hp
  · rw [List.all_eq_true]
    intro p hp
    exact mem_scanPolygonWrites hp
  · rw [List.all_eq_true]
    intro p hp
    unfold drawLineWrites at hp
    exact mem_drawLineLoop _ _ _ _ hp

end Iptw
